import Mathlib

/-
  Shallow embedding of `src/app.py` (class `PDFQuestionExtractor`).

  Strings are modelled as `List Char`.  The two pipeline stages are embedded:

  * `_extract_text_and_images`  →  `procPages` / `extractTI` (the stream
    classifier: a fold over pages, blocks and lines mutating the scan state
    `CState` and accumulating `flat_text` and the tagged image list);
  * `_structure_questions`      →  `structureQuestions` (the assembler:
    `re.split` on the boundary pattern, per-record image walk, regex cleanup).

  The three regular expressions of the source are embedded as executable
  matchers with Python `re` semantics (leftmost match, ordered alternation,
  greedy quantifiers with backtracking, `.` not matching a newline, no
  MULTILINE flag so `^` only matches at position 0):

  * `\b(\d+)\.(?!\n)`            →  `searchQuesTop`
  * `\[[A-D]\]`                  →  `searchOpt`
  * `(?:^|\n)(\d{1,2})\.\s`      →  `scanSplit` (the `re.split` driver)
  * `Ans\s*\[[A-D]\]|\[[A-D]\].*|Ans.*|SECTION.*|\n\n.*|\n`  →  `reSub`

  File writes performed by the assembler are modelled as an ordered trace of
  `(path, payload)` pairs.
-/

namespace App

/-- Python `\s` on the ASCII range: the whitespace characters `re` accepts
(our inputs are ASCII, where this agrees with Python's unicode `\s`). -/
def isPySpace (c : Char) : Bool :=
  c == ' ' || c == '\t' || c == '\n' || c == '\r' || c == '\x0B' || c == '\x0C'

/-- Python `\w` on the ASCII range: letters, digits and underscore. -/
def isWordChar (c : Char) : Bool :=
  c.isAlphanum || c == '_'

/-- The character class `[A-D]`. -/
def isOptLetter (c : Char) : Bool :=
  c == 'A' || c == 'B' || c == 'C' || c == 'D'

/-- `listStarts sub s` : `sub` is a prefix of `s`. -/
def listStarts : List Char → List Char → Bool
  | [], _ => true
  | _ :: _, [] => false
  | a :: s1, b :: s2 => a == b && listStarts s1 s2

/-- Python's substring test `sub in s`. -/
def pyIn (sub : List Char) : List Char → Bool
  | [] => listStarts sub []
  | c :: t => listStarts sub (c :: t) || pyIn sub (t)

/-- Python `str.strip()`: remove leading and trailing whitespace. -/
def pyStrip (s : List Char) : List Char :=
  ((s.dropWhile isPySpace).reverse.dropWhile isPySpace).reverse

/-- Decimal rendering of a nonnegative integer, as Python `f"{n}"`. -/
def natStr (n : Nat) : List Char :=
  (Nat.repr n).toList

/-! ### The boundary pattern `(?:^|\n)(\d{1,2})\.\s` used by `re.split` -/

/-- `(\d{1})\.\s` after the first digit `d1` failed the two-digit branch:
the backtracked one-digit attempt of `\d{1,2}`. -/
def matchOneDigit (d1 : Char) (rest1 : List Char) : Option (List Char × List Char) :=
  match rest1 with
  | '.' :: w :: rest2 => if isPySpace w then some ([d1], rest2) else none
  | _ => none

/-- `(\d{1,2})\.\s` at the current position: the quantifier is greedy, so the
two-digit branch is attempted first and the engine backtracks to one digit. -/
def matchNumDotSpace : List Char → Option (List Char × List Char)
  | [] => none
  | d1 :: rest1 =>
    if d1.isDigit then
      match rest1 with
      | d2 :: '.' :: w :: rest3 =>
        if d2.isDigit && isPySpace w then some ([d1, d2], rest3)
        else matchOneDigit d1 rest1
      | _ => matchOneDigit d1 rest1
    else none

/-- The full split pattern at the current position.  `isStart` records whether
the position is 0 (`^` matches only there — no MULTILINE flag); the `^`
alternative is tried before the `\n` alternative and consumes nothing. -/
def matchQBound (isStart : Bool) (s : List Char) : Option (List Char × List Char) :=
  match (if isStart then matchNumDotSpace s else none) with
  | some r => some r
  | none =>
    match s with
    | '\n' :: rest => matchNumDotSpace rest
    | _ => none

/-- `re.split` scanning loop, fuelled (every match consumes at least three
characters, so `s.length + 1` fuel is never exhausted).  Returns the text
before the first match and the list of (captured numeral, following segment)
pairs, exactly the odd/even positions of Python's `parts` list. -/
def scanSplitF : Nat → Bool → List Char → List Char × List (List Char × List Char)
  | 0, _, s => (s, [])
  | fuel + 1, isStart, s =>
    match matchQBound isStart s with
    | some (num, rest) =>
      let r := scanSplitF fuel false rest
      ([], (num, r.1) :: r.2)
    | none =>
      match s with
      | [] => ([], [])
      | c :: t =>
        let r := scanSplitF fuel false t
        (c :: r.1, r.2)

/-- `re.split(r'(?:^|\n)(\d{1,2})\.\s', combined_text)` (line 108). -/
def scanSplit (isStart : Bool) (s : List Char) : List Char × List (List Char × List Char) :=
  scanSplitF (s.length + 1) isStart s

/-! ### The classifier pattern `\b(\d+)\.(?!\n)` (line 68) -/

/-- Backtracking over the greedy `\d+` before `\.(?!\n)`: `revRun` holds the
digits currently consumed (reversed); on failure the engine gives one back. -/
def tryDigitBack : List Char → List Char → Option (List Char)
  | [], _ => none
  | d :: revRest, rest =>
    match rest with
    | '.' :: t =>
      if t.head? = some '\n' then tryDigitBack revRest (d :: rest)
      else some ((d :: revRest).reverse)
    | _ => tryDigitBack revRest (d :: rest)

/-- Try `\b(\d+)\.(?!\n)` at the current position; `prevWord` says whether the
character before the position is a word character (for `\b`; the pattern then
requires a digit, a word character, so the boundary needs `prevWord = false`). -/
def matchQuesAt (prevWord : Bool) (s : List Char) : Option (List Char) :=
  if prevWord then none
  else
    let run := s.takeWhile Char.isDigit
    if run.isEmpty then none
    else tryDigitBack run.reverse (s.drop run.length)

/-- `re.search(r'\b(\d+)\.(?!\n)', text)`: leftmost match, returning the
captured digit group. -/
def searchQues : Bool → List Char → Option (List Char)
  | _, [] => none
  | pw, c :: t =>
    match matchQuesAt pw (c :: t) with
    | some cap => some cap
    | none => searchQues (isWordChar c) t

def searchQuesTop (s : List Char) : Option (List Char) :=
  searchQues false s

/-- `re.search(r'\[[A-D]\]', text)`: leftmost match, returning the letter. -/
def searchOpt : List Char → Option Char
  | '[' :: c :: ']' :: rest =>
    if isOptLetter c then some c else searchOpt (c :: ']' :: rest)
  | _ :: t => searchOpt t
  | [] => none

/-! ### Data model of the classifier (`_extract_text_and_images`) -/

/-- One text span of a layout line; only its `text` field is read. -/
structure Span where
  text : List Char
deriving DecidableEq

/-- One layout line: `line['spans']`.  (The line dict also carries the fixed
keys `wmode`, `dir`, `bbox`, so Python's `len(line)` is the constant 4 and the
source's `len(line) == 0` test is never true; it is therefore not modelled.) -/
structure Line where
  spans : List Span
deriving DecidableEq

/-- One page block: a text block (`block["type"] == 0`) with its lines, or an
image block (`block["type"] == 1`) with an opaque byte payload (modelled as a
`Nat` identifier) and its extension hint. -/
inductive Block where
  | text (lines : List Line)
  | image (data : Nat) (ext : List Char)
deriving DecidableEq

structure Page where
  blocks : List Block
deriving DecidableEq

/-- The mutable scan state of `_extract_text_and_images`: `prev` (0 question /
1 option), `ques` (int 1 initially, then the string `text[:2]`), `option`
(initially the three-character string `"[A]"`, then `text[1]`), and the global
image counter. -/
structure CState where
  prev : Nat
  ques : List Char
  optionL : List Char
  imgCount : Nat
deriving DecidableEq

def initState : CState :=
  ⟨0, ['1'], "[A]".toList, 0⟩

/-- One tagged image record of `image_data` (line 86). -/
structure TImage where
  data : Nat
  page : Nat
  name : List Char
deriving DecidableEq

/-- Classifier accumulator: scan state, `all_text`, `image_data`. -/
structure Acc where
  st : CState
  texts : List (List Char)
  imgs : List TImage
deriving DecidableEq

def initAcc : Acc :=
  ⟨initState, [], []⟩

/-- State update for one appended text fragment (lines 68–76): the question
pattern sets `prev = 0` and `ques = text[:2]` (the slice of the *subject
string*, not the captured group); the option pattern then sets `prev = 1` and
`option = text[1]` (again the subject string's second character; a match
guarantees at least three characters, so the index exists and equals this
one-character take). -/
def stepText (st : CState) (t : List Char) : CState :=
  let st1 :=
    match searchQuesTop t with
    | some _ => { st with prev := 0, ques := t.take 2 }
    | none => st
  match searchOpt t with
  | some _ => { st1 with prev := 1, optionL := (t.drop 1).take 1 }
  | none => st1

/-- One line of a text block (lines 62–76).  `line['spans'][0]['text']` is read
before the emptiness test, so a line with no spans raises `IndexError`
(modelled as `none`); an empty first-span text is skipped via `continue`. -/
def procLine (acc : Acc) (line : Line) : Option Acc :=
  match line.spans with
  | [] => none
  | sp :: _ =>
    let t := sp.text
    if t.length = 0 then some acc
    else some { acc with texts := acc.texts ++ [t], st := stepText acc.st t }

def procLines (acc : Acc) : List Line → Option Acc
  | [] => some acc
  | l :: ls =>
    match procLine acc l with
    | some a => procLines a ls
    | none => none

/-- The synthesized image name (lines 81–84). -/
def mkImgName (st : CState) (ext : List Char) : List Char :=
  if st.prev = 1 then
    "q".toList ++ st.ques ++ "_option".toList ++ st.optionL ++
      "_".toList ++ natStr st.imgCount ++ ".".toList ++ ext
  else
    "img_q".toList ++ st.ques ++ "_".toList ++ natStr st.imgCount ++
      ".".toList ++ ext

/-- One image block (lines 78–90): name it from the current state, bump the
global counter, append the tagged image. -/
def procImage (acc : Acc) (pnum : Nat) (data : Nat) (ext : List Char) : Acc :=
  let name := mkImgName acc.st ext
  { acc with
      st := { acc.st with imgCount := acc.st.imgCount + 1 },
      imgs := acc.imgs ++ [⟨data, pnum, name⟩] }

def procBlock (pnum : Nat) (acc : Acc) : Block → Option Acc
  | Block.text lines => procLines acc lines
  | Block.image d e => some (procImage acc pnum d e)

def procBlocks (pnum : Nat) (acc : Acc) : List Block → Option Acc
  | [] => some acc
  | b :: bs =>
    match procBlock pnum acc b with
    | some a => procBlocks pnum a bs
    | none => none

/-- One page (lines 56–58): the block loop is
`for i in range(len(content["blocks"]) - 1)`, i.e. it runs over every block
except the last one — `blocks.dropLast`. -/
def procPage (pnum : Nat) (acc : Acc) (pg : Page) : Option Acc :=
  procBlocks pnum acc pg.blocks.dropLast

def procPages (acc : Acc) (pnum : Nat) : List Page → Option Acc
  | [] => some acc
  | p :: ps =>
    match procPage pnum acc p with
    | some a => procPages a (pnum + 1) ps
    | none => none

/-- `_extract_text_and_images`, before the final join: the ordered `all_text`
list and `image_data`.  `none` models an uncaught exception. -/
def extractTI (doc : List Page) : Option (List (List Char) × List TImage) :=
  (procPages initAcc 1 doc).map (fun a => (a.texts, a.imgs))

/-- `"\n".join(all_text)` (line 93). -/
def joinNL : List (List Char) → List Char
  | [] => []
  | [t] => t
  | t :: ts => t ++ '\n' :: joinNL ts

/-! ### The cleanup substitution (lines 135–138)
`re.sub(r'Ans\s*\[[A-D]\]|\[[A-D]\].*|Ans.*|SECTION.*|\n\n.*|\n', '', q_text)` -/

/-- `.*` : consume to the end of the line (`.` does not match a newline). -/
def restOfLine (s : List Char) : List Char :=
  s.dropWhile (fun c => !(c == '\n'))

/-- Alternative 1: `Ans\s*\[[A-D]\]`.  The greedy `\s*` takes the maximal
whitespace run; backtracking cannot help because a shorter run leaves a
whitespace character where `\[` is required. -/
def alt1 : List Char → Option (List Char)
  | 'A' :: 'n' :: 's' :: r =>
    match r.dropWhile isPySpace with
    | '[' :: c :: ']' :: r3 => if isOptLetter c then some r3 else none
    | _ => none
  | _ => none

/-- Alternative 2: `\[[A-D]\].*`. -/
def alt2 : List Char → Option (List Char)
  | '[' :: c :: ']' :: r => if isOptLetter c then some (restOfLine r) else none
  | _ => none

/-- Alternative 3: `Ans.*`. -/
def alt3 : List Char → Option (List Char)
  | 'A' :: 'n' :: 's' :: r => some (restOfLine r)
  | _ => none

/-- Alternative 4: `SECTION.*`. -/
def alt4 : List Char → Option (List Char)
  | 'S' :: 'E' :: 'C' :: 'T' :: 'I' :: 'O' :: 'N' :: r => some (restOfLine r)
  | _ => none

/-- Alternative 5: `\n\n.*`. -/
def alt5 : List Char → Option (List Char)
  | '\n' :: '\n' :: r => some (restOfLine r)
  | _ => none

/-- Alternative 6: `\n`. -/
def alt6 : List Char → Option (List Char)
  | '\n' :: r => some r
  | _ => none

/-- One attempt of the whole alternation at the current position (Python's
alternation is ordered: the first alternative that matches wins). -/
def matchAlt (s : List Char) : Option (List Char) :=
  (alt1 s).or ((alt2 s).or ((alt3 s).or ((alt4 s).or ((alt5 s).or (alt6 s)))))

/-- `re.sub` scanning loop, fuelled (every match consumes at least one
character, so `s.length + 1` fuel is never exhausted): delete each
non-overlapping leftmost match, copy non-matching characters. -/
def reSubF : Nat → List Char → List Char
  | 0, s => s
  | fuel + 1, s =>
    match matchAlt s with
    | some r => reSubF fuel r
    | none =>
      match s with
      | [] => []
      | c :: t => c :: reSubF fuel t

def reSub (s : List Char) : List Char :=
  reSubF (s.length + 1) s

/-- One question span's cleaned text: `parts[i+1].strip()` (line 112), then
the substitution, then `.strip()` (line 138). -/
def cleanSpan (s : List Char) : List Char :=
  pyStrip (reSub (pyStrip s))

/-! ### The assembler (`_structure_questions`) -/

structure QRecord where
  question_number : Nat
  question : List Char
  question_images : List (List Char)
  option_images : List (List Char)
deriving DecidableEq

/-- `f'img_q{q_number}'` (line 123). -/
def qKey (n : Nat) : List Char :=
  "img_q".toList ++ natStr n

/-- `f'q{q_number}'` (lines 125 and 129). -/
def oKey (n : Nat) : List Char :=
  "q".toList ++ natStr n

/-- `str(self.image_dir / img_name)`. -/
def pathOf (dir name : List Char) : List Char :=
  dir ++ name

/-- Result of one record's image walk: the trace of file writes, the two
collected path lists, and the images left for the next record. -/
structure WalkOut where
  writes : List (List Char × Nat)
  qimgs : List (List Char)
  oimgs : List (List Char)
  remaining : List TImage
deriving DecidableEq

/-- The `while img_index < len(image_data)` loop of lines 117–132: write the
current image to disk, classify it by substring tests on its name, then break
(without advancing `img_index`) when `f'q{q_number}'` is not in the name. -/
def imgWalk (dir : List Char) (qn : Nat) : List TImage → WalkOut
  | [] => ⟨[], [], [], []⟩
  | img :: rest =>
    let wr := (pathOf dir img.name, img.data)
    let qAdd : List (List Char) :=
      if pyIn (qKey qn) img.name then [pathOf dir img.name] else []
    let oAdd : List (List Char) :=
      if pyIn (qKey qn) img.name then []
      else if pyIn (oKey qn) img.name then [pathOf dir img.name] else []
    if pyIn (oKey qn) img.name then
      let w := imgWalk dir qn rest
      ⟨wr :: w.writes, qAdd ++ w.qimgs, oAdd ++ w.oimgs, w.remaining⟩
    else
      ⟨[wr], qAdd, oAdd, img :: rest⟩

/-- The `for i in range(1, len(parts), 2)` loop of lines 111–143, recursing
over the captured segments with the assembler's own counter `q_number`.
Returns the records and the concatenated write trace. -/
def buildRecords (dir : List Char) :
    List (List Char) → Nat → List TImage → List QRecord × List (List Char × Nat)
  | [], _, _ => ([], [])
  | seg :: segs, qn, imgs =>
    let w := imgWalk dir qn imgs
    let rest := buildRecords dir segs (qn + 1) w.remaining
    (⟨qn, cleanSpan seg, w.qimgs, w.oimgs⟩ :: rest.1, w.writes ++ rest.2)

/-- `_structure_questions(combined_text, image_data)` (lines 95–145), plus the
ordered trace of image file writes it performs. -/
def structureQuestions (dir combined : List Char) (imgs : List TImage) :
    List QRecord × List (List Char × Nat) :=
  buildRecords dir ((scanSplit true combined).2.map (fun p => p.2)) 1 imgs

/-! ## Theorems -/

/-- The record numbers produced by the assembler loop are the consecutive
integers starting at its own counter, one per captured segment, whatever the
segments and images are. -/
theorem buildRecords_map_qnum (dir : List Char) (segs : List (List Char)) :
    ∀ qn imgs, ((buildRecords dir segs qn imgs).1.map QRecord.question_number)
      = List.range' qn segs.length := by
  induction segs with
  | nil => intro qn imgs; simp [buildRecords]
  | cons seg segs ih =>
    intro qn imgs
    simp [buildRecords, List.range'_succ, ih]

/-- C1: for every input whose joined text has N matches of the boundary
pattern `(?:^|\n)(\d{1,2})\.\s` (the segment pairs produced by `scanSplit`),
the assembler produces exactly N records whose `question_number` fields are
1, 2, …, N in output order — independent of the captured numerals, which the
loop never reads. -/
theorem C1_records_numbered_sequentially (dir combined : List Char) (imgs : List TImage) :
    ((structureQuestions dir combined imgs).1.map QRecord.question_number)
        = List.range' 1 ((scanSplit true combined).2.length) ∧
    (structureQuestions dir combined imgs).1.length
        = (scanSplit true combined).2.length := by
  constructor
  · simpa [structureQuestions] using
      buildRecords_map_qnum dir ((scanSplit true combined).2.map (fun p => p.2)) 1 imgs
  · have h := buildRecords_map_qnum dir
      ((scanSplit true combined).2.map (fun p => p.2)) 1 imgs
    have := congrArg List.length h
    simpa [structureQuestions] using this

/-- C9: if the boundary pattern finds no matches in the joined text, the
assembler returns an empty record list. -/
theorem C9_no_match_empty_output (dir combined : List Char) (imgs : List TImage)
    (h : (scanSplit true combined).2 = []) :
    (structureQuestions dir combined imgs).1 = [] := by
  simp [structureQuestions, h, buildRecords]

/-- C9 witness: the empty document has no boundary match and yields no
records. -/
theorem C9_no_match_empty_output_witness :
    (scanSplit true []).2 = [] ∧ (structureQuestions [] [] []).1 = [] :=
  ⟨by decide, C9_no_match_empty_output [] [] [] (by decide)⟩

/-- C10: a text block with zero lines is silently skipped by the classifier
(the accumulator — flat text, images, state, counters — is returned
unchanged, with no error), and so is a line whose first span holds the empty
text. -/
theorem C10_empty_line_and_span_skipped :
    (∀ pnum acc, procBlock pnum acc (Block.text []) = some acc) ∧
    (∀ acc tl, procLine acc ⟨⟨[]⟩ :: tl⟩ = some acc) :=
  ⟨fun _ _ => rfl, fun _ _ => rfl⟩

/-- C2 counterexample: a page whose only block is an image block.  The block
loop `for i in range(len(content["blocks"]) - 1)` skips the last block of
every page, so this image block is never processed and no `TaggedImage` is
produced — refuting "every image block produces exactly one TaggedImage; no
block of any page is left unprocessed". -/
theorem C2_counterexample_last_block_skipped :
    (Page.mk [Block.image 7 "png".toList]).blocks.length = 1 ∧
    extractTI [Page.mk [Block.image 7 "png".toList]] = some ([], []) := by
  constructor
  · rfl
  · rfl

/-- C3 counterexample: an image whose name encodes question 10 is classified
as a *question image of record 1*, because the test is the substring check
`'img_q1' in 'img_q10_0.png'` — refuting "an image tagged with a different
question number (for example question 10 while the current record number
is 1) is never classified under the current record". -/
theorem C3_counterexample_q10_matches_record1 :
    (imgWalk "d/".toList 1 [TImage.mk 9 1 "img_q10_0.png".toList]).qimgs
      = ["d/img_q10_0.png".toList] := by
  decide

/-- C4 counterexample: on the fragment `"1. What is 2+2?"` the question
pattern matches with captured numeral `"1"`, but the classifier stores
`text[:2] = "1."` (the first two characters of the subject string, line 72),
not the captured numeral — refuting "updates current_question_number to the
numeral captured by that match". -/
theorem C4_counterexample_ques_is_first_two_chars :
    searchQuesTop "1. What is 2+2?".toList = some ['1'] ∧
    (stepText initState "1. What is 2+2?".toList).ques = ['1', '.'] ∧
    (['1', '.'] : List Char) ≠ ['1'] := by
  decide

/-- C5 counterexample: on the fragment `"Ans [B]"` the option pattern matches
with bracketed letter `B`, but the classifier stores `text[1] = 'n'` (the
second character of the subject string, line 76), not the matched letter —
refuting "updates current_option_letter to the letter inside the matched
brackets". -/
theorem C5_counterexample_option_is_second_char :
    searchOpt "Ans [B]".toList = some 'B' ∧
    (stepText initState "Ans [B]".toList).optionL = ['n'] ∧
    (['n'] : List Char) ≠ ['B'] := by
  decide

/-- C6 counterexample: one image tagged for question 2, two records.  Record
1's pass writes the image to disk and then breaks without advancing the
cursor; record 2's pass writes the very same image again before consuming it.
The write trace has the image twice — refuting "persists it to storage
exactly once". -/
theorem C6_counterexample_boundary_image_written_twice :
    (structureQuestions [] "1. A\n2. B".toList
        [TImage.mk 5 1 "q2_optionA_0.png".toList]).2
      = [("q2_optionA_0.png".toList, 5), ("q2_optionA_0.png".toList, 5)] := by
  decide

/-- C7 counterexample: cleaning a span containing `"Ans [B] trailing junk"`.
The first alternative `Ans\s*\[[A-D]\]` wins at the `A` and consumes only
`"Ans [B]"`, so `" trailing junk"` survives into the cleaned text — refuting
"removes that entire suffix". -/
theorem C7_counterexample_trailing_junk_survives :
    cleanSpan "What? Ans [B] trailing junk".toList
      = "What?  trailing junk".toList ∧
    pyIn "trailing junk".toList
      (cleanSpan "What? Ans [B] trailing junk".toList) = true := by
  decide

/-- C8 counterexample: cleaning a span with `"SECTION II"` mid-body.  `.` in
`SECTION.*` does not match a newline, so only the rest of that line is
removed and `"more text"` on the following line survives — refuting
"including any text on subsequent lines". -/
theorem C8_counterexample_next_line_survives :
    cleanSpan "What? SECTION II\nmore text".toList = "What? more text".toList ∧
    pyIn "more text".toList
      (cleanSpan "What? SECTION II\nmore text".toList) = true := by
  decide

/-- C4 amended: when the question pattern matches a fragment (and no option
marker overrides the role afterwards), the classifier sets the role to
QuestionContext (`prev = 0`) and stores the fragment's *first two characters*
`text[:2]` as the current question number. -/
theorem C4_amended_ques_from_first_two_chars (st : CState) (t cap : List Char)
    (hq : searchQuesTop t = some cap) (ho : searchOpt t = none) :
    (stepText st t).ques = t.take 2 ∧ (stepText st t).prev = 0 := by
  simp [stepText, hq, ho]

/-- C4 amended witness at the fragment `"1. What is 2+2?"`. -/
theorem C4_amended_ques_from_first_two_chars_witness :
    (stepText initState "1. What is 2+2?".toList).ques
        = "1. What is 2+2?".toList.take 2 ∧
    (stepText initState "1. What is 2+2?".toList).prev = 0 :=
  C4_amended_ques_from_first_two_chars initState "1. What is 2+2?".toList ['1']
    (by decide) (by decide)

/-- C5 amended: when a fragment contains a bracketed option marker, the
classifier sets the role to OptionContext (`prev = 1`) and stores the
fragment's *second character* `text[1]` as the current option letter. -/
theorem C5_amended_option_from_second_char (st : CState) (t : List Char) (c : Char)
    (h : searchOpt t = some c) :
    (stepText st t).optionL = (t.drop 1).take 1 ∧ (stepText st t).prev = 1 := by
  cases hq : searchQuesTop t <;> simp [stepText, hq, h]

/-- C5 amended witness at the fragment `"Ans [B]"`. -/
theorem C5_amended_option_from_second_char_witness :
    (stepText initState "Ans [B]".toList).optionL
        = ("Ans [B]".toList.drop 1).take 1 ∧
    (stepText initState "Ans [B]".toList).prev = 1 :=
  C5_amended_option_from_second_char initState "Ans [B]".toList 'B' (by decide)

/-- C6 amended: characterization of one record's image walk.  The cursor
advances exactly over the longest prefix of images whose names contain the
substring `q{n}`; every image of that prefix is written once, the first
image past the prefix (if any) is *also* written but left unconsumed for the
next record's pass — which is why an image that stops a pass is written once
per pass that examines it. -/
theorem C6_amended_walk_is_takeWhile (dir : List Char) (qn : Nat) (imgs : List TImage) :
    (imgWalk dir qn imgs).writes
      = ((imgs.takeWhile (fun i => pyIn (oKey qn) i.name))
          ++ (imgs.drop (imgs.takeWhile (fun i => pyIn (oKey qn) i.name)).length).take 1).map
          (fun i => (pathOf dir i.name, i.data)) ∧
    (imgWalk dir qn imgs).remaining
      = imgs.drop (imgs.takeWhile (fun i => pyIn (oKey qn) i.name)).length := by
  induction imgs with
  | nil => constructor <;> rfl
  | cons img rest ih =>
    by_cases h : pyIn (oKey qn) img.name
    · constructor
      · simp [imgWalk, h, List.takeWhile_cons, ih.1]
      · simp [imgWalk, h, List.takeWhile_cons, ih.2]
    · constructor
      · simp [imgWalk, h, List.takeWhile_cons]
      · simp [imgWalk, h, List.takeWhile_cons]

/-- C3 amended: classification during the walk is by substring containment on
the synthesized name, not by an exact tag: a path lands in
`question_images` exactly for examined images whose name *contains*
`img_q{n}`, and in `option_images` for those whose name contains `q{n}` but
not `img_q{n}`.  (Since `q1` is a substring of `q10`, names tagged for
question 10 satisfy the record-1 test — see the counterexample.) -/
theorem C3_amended_classification_by_substring (dir : List Char) (qn : Nat)
    (imgs : List TImage) :
    (∀ p, p ∈ (imgWalk dir qn imgs).qimgs →
        ∃ i, i ∈ imgs ∧ p = pathOf dir i.name ∧ pyIn (qKey qn) i.name = true) ∧
    (∀ p, p ∈ (imgWalk dir qn imgs).oimgs →
        ∃ i, i ∈ imgs ∧ p = pathOf dir i.name ∧
          pyIn (qKey qn) i.name = false ∧ pyIn (oKey qn) i.name = true) := by
  induction imgs with
  | nil =>
    constructor <;> intro p hp <;> simp [imgWalk] at hp
  | cons img rest ih =>
    by_cases ho : pyIn (oKey qn) img.name <;>
      by_cases hq : pyIn (qKey qn) img.name
    all_goals try simp only [Bool.not_eq_true] at ho
    all_goals try simp only [Bool.not_eq_true] at hq
    all_goals constructor
    all_goals intro p hp
    all_goals simp [imgWalk, ho, hq] at hp
    · rcases hp with hp | hp
      · exact ⟨img, by simp, hp, hq⟩
      · obtain ⟨i, hi, hpi, hqi⟩ := ih.1 p hp
        exact ⟨i, by simp [hi], hpi, hqi⟩
    · obtain ⟨i, hi, hpi, hqi1, hqi2⟩ := ih.2 p hp
      exact ⟨i, by simp [hi], hpi, hqi1, hqi2⟩
    · obtain ⟨i, hi, hpi, hqi⟩ := ih.1 p hp
      exact ⟨i, by simp [hi], hpi, hqi⟩
    · rcases hp with hp | hp
      · exact ⟨img, by simp, hp, hq, ho⟩
      · obtain ⟨i, hi, hpi, hqi1, hqi2⟩ := ih.2 p hp
        exact ⟨i, by simp [hi], hpi, hqi1, hqi2⟩
    · exact ⟨img, by simp, hp, hq⟩

/-- C3 amended witness: a question image of record 1. -/
theorem C3_amended_classification_by_substring_witness :
    ∃ i, i ∈ [TImage.mk 9 1 "img_q1_0.png".toList] ∧
      "d/img_q1_0.png".toList = pathOf "d/".toList i.name ∧
      pyIn (qKey 1) i.name = true :=
  (C3_amended_classification_by_substring "d/".toList 1
      [TImage.mk 9 1 "img_q1_0.png".toList]).1
    "d/img_q1_0.png".toList (by decide)

/-! ### Stepping lemmas for the substitution scan -/

theorem restOfLine_length_le (s : List Char) : (restOfLine s).length ≤ s.length :=
  (List.dropWhile_suffix _).length_le

theorem alt1_lt {s r : List Char} (h : alt1 s = some r) : r.length < s.length := by
  unfold alt1 at h
  split at h
  · rename_i rtail
    split at h
    · rename_i c r3 heq
      split at h
      · injection h with h1
        subst h1
        have h2 : (rtail.dropWhile isPySpace).length ≤ rtail.length :=
          (List.dropWhile_suffix _).length_le
        rw [heq] at h2
        simp only [List.length_cons] at h2 ⊢
        omega
      · cases h
    · cases h
  · cases h

theorem alt2_lt {s r : List Char} (h : alt2 s = some r) : r.length < s.length := by
  unfold alt2 at h
  split at h
  · rename_i c rtail
    split at h
    · injection h with h1
      subst h1
      have h2 := restOfLine_length_le rtail
      simp only [List.length_cons]
      omega
    · cases h
  · cases h

theorem alt3_lt {s r : List Char} (h : alt3 s = some r) : r.length < s.length := by
  unfold alt3 at h
  split at h
  · rename_i rtail
    injection h with h1
    subst h1
    have h2 := restOfLine_length_le rtail
    simp only [List.length_cons]
    omega
  · cases h

theorem alt4_lt {s r : List Char} (h : alt4 s = some r) : r.length < s.length := by
  unfold alt4 at h
  split at h
  · rename_i rtail
    injection h with h1
    subst h1
    have h2 := restOfLine_length_le rtail
    simp only [List.length_cons]
    omega
  · cases h

theorem alt5_lt {s r : List Char} (h : alt5 s = some r) : r.length < s.length := by
  unfold alt5 at h
  split at h
  · rename_i rtail
    injection h with h1
    subst h1
    have h2 := restOfLine_length_le rtail
    simp only [List.length_cons]
    omega
  · cases h

theorem alt6_lt {s r : List Char} (h : alt6 s = some r) : r.length < s.length := by
  unfold alt6 at h
  split at h
  · injection h with h1
    subst h1
    simp
  · cases h

/-- Every match of the cleanup alternation consumes at least one character. -/
theorem matchAlt_lt {s r : List Char} (h : matchAlt s = some r) : r.length < s.length := by
  unfold matchAlt at h
  simp only [Option.or_eq_some] at h
  rcases h with h | ⟨_, h⟩
  · exact alt1_lt h
  rcases h with h | ⟨_, h⟩
  · exact alt2_lt h
  rcases h with h | ⟨_, h⟩
  · exact alt3_lt h
  rcases h with h | ⟨_, h⟩
  · exact alt4_lt h
  rcases h with h | ⟨_, h⟩
  · exact alt5_lt h
  exact alt6_lt h

/-- The fuelled scan does not depend on the fuel once it exceeds the input
length (each step consumes at least one character). -/
theorem reSubF_fuel_irrelevant :
    ∀ f1 : Nat, ∀ s : List Char, ∀ f2 : Nat,
      s.length < f1 → s.length < f2 → reSubF f1 s = reSubF f2 s := by
  intro f1
  induction f1 with
  | zero => intro s f2 h1 _; omega
  | succ g ih =>
    intro s f2 h1 h2
    cases f2 with
    | zero => omega
    | succ g2 =>
      simp only [reSubF]
      cases hm : matchAlt s with
      | some r =>
        have hr := matchAlt_lt hm
        exact ih r g2 (by omega) (by omega)
      | none =>
        cases s with
        | nil => rfl
        | cons c t =>
          simp only [List.length_cons] at h1 h2
          exact congrArg (c :: ·) (ih t g2 (by omega) (by omega))

/-- One deletion step of `re.sub`: a match at the current position is removed
and scanning resumes after it. -/
theorem reSub_step {s r : List Char} (h : matchAlt s = some r) :
    reSub s = reSub r := by
  unfold reSub
  have h1 : reSubF (s.length + 1) s = reSubF s.length r := by
    simp only [reSubF, h]
  rw [h1]
  exact reSubF_fuel_irrelevant s.length r (r.length + 1) (matchAlt_lt h) (by omega)

/-- C7 amended: on reaching the marker `Ans [B]`, the cleanup removes exactly
the marker (the first alternative `Ans\s*\[[A-D]\]` wins over `Ans.*`) and the
scan continues with everything after the bracketed letter, so text after the
marker is not removed by this alternative. -/
theorem C7_amended_marker_only_removed (rest : List Char) :
    reSub ('A' :: 'n' :: 's' :: ' ' :: '[' :: 'B' :: ']' :: rest) = reSub rest := by
  apply reSub_step
  have h1 : alt1 ('A' :: 'n' :: 's' :: ' ' :: '[' :: 'B' :: ']' :: rest) = some rest := rfl
  unfold matchAlt
  rw [h1]
  exact Option.or_some

/-- C8 amended: on reaching `SECTION`, the cleanup removes the rest of that
line only (`.` in `SECTION.*` does not cross a newline); text on subsequent
lines survives this alternative (the newline itself is removed by the last
alternative in a later step). -/
theorem C8_amended_section_removes_to_line_end (rest : List Char) :
    reSub ('S' :: 'E' :: 'C' :: 'T' :: 'I' :: 'O' :: 'N' :: rest)
      = reSub (restOfLine rest) := by
  apply reSub_step
  have h1 : alt1 ('S' :: 'E' :: 'C' :: 'T' :: 'I' :: 'O' :: 'N' :: rest) = none := rfl
  have h2 : alt2 ('S' :: 'E' :: 'C' :: 'T' :: 'I' :: 'O' :: 'N' :: rest) = none := rfl
  have h3 : alt3 ('S' :: 'E' :: 'C' :: 'T' :: 'I' :: 'O' :: 'N' :: rest) = none := rfl
  have h4 : alt4 ('S' :: 'E' :: 'C' :: 'T' :: 'I' :: 'O' :: 'N' :: rest)
      = some (restOfLine rest) := rfl
  unfold matchAlt
  rw [h1, h2, h3, h4]
  simp only [Option.none_or, Option.or_some]

/-! ### What the classifier keeps from the processed block prefix -/

/-- The flat-text contribution of one line: its first span's text when that
text is non-empty, nothing when it is empty.  (A line with no spans raises in
the source; it contributes nothing here and is ruled out by the success
hypotheses below.) -/
def keptLine (l : Line) : List (List Char) :=
  match l.spans with
  | [] => []
  | sp :: _ => if sp.text.length = 0 then [] else [sp.text]

/-- The flat-text contribution of one block. -/
def blockTexts : Block → List (List Char)
  | Block.text ls => (ls.map keptLine).flatten
  | Block.image _ _ => []

/-- The number of tagged images one block should yield. -/
def blockImgCount : Block → Nat
  | Block.text _ => 0
  | Block.image _ _ => 1

/-- The flat-text contribution of one page: its blocks *except the last*. -/
def pageTexts (p : Page) : List (List Char) :=
  (p.blocks.dropLast.map blockTexts).flatten

def pageImgCount (p : Page) : Nat :=
  (p.blocks.dropLast.map blockImgCount).sum

def docTexts (doc : List Page) : List (List Char) :=
  (doc.map pageTexts).flatten

def docImgCount (doc : List Page) : Nat :=
  (doc.map pageImgCount).sum

theorem procLine_out {acc : Acc} {l : Line} {a : Acc} (h : procLine acc l = some a) :
    a.texts = acc.texts ++ keptLine l ∧ a.imgs = acc.imgs := by
  unfold procLine at h
  cases hs : l.spans with
  | nil => rw [hs] at h; cases h
  | cons sp tl =>
    rw [hs] at h
    dsimp only at h
    by_cases ht : sp.text.length = 0
    · rw [if_pos ht] at h
      injection h with h1
      subst h1
      constructor
      · simp [keptLine, hs, ht]
      · rfl
    · rw [if_neg ht] at h
      injection h with h1
      subst h1
      constructor
      · simp [keptLine, hs, ht]
      · rfl

theorem procLines_out :
    ∀ (ls : List Line) (acc a : Acc), procLines acc ls = some a →
      a.texts = acc.texts ++ (ls.map keptLine).flatten ∧ a.imgs = acc.imgs := by
  intro ls
  induction ls with
  | nil =>
    intro acc a h
    injection h with h1
    subst h1
    simp
  | cons l ls ih =>
    intro acc a h
    unfold procLines at h
    cases hl : procLine acc l with
    | none => rw [hl] at h; cases h
    | some b =>
      rw [hl] at h
      obtain ⟨h1, h2⟩ := procLine_out hl
      obtain ⟨h3, h4⟩ := ih b a h
      constructor
      · rw [h3, h1]; simp
      · rw [h4, h2]

theorem procBlock_out {pnum : Nat} {acc : Acc} {b : Block} {a : Acc}
    (h : procBlock pnum acc b = some a) :
    a.texts = acc.texts ++ blockTexts b ∧
    a.imgs.length = acc.imgs.length + blockImgCount b := by
  cases b with
  | text ls =>
    obtain ⟨h1, h2⟩ := procLines_out ls acc a h
    constructor
    · simpa [blockTexts] using h1
    · simp [blockImgCount, h2]
  | image d e =>
    injection h with h1
    subst h1
    constructor
    · simp [procImage, blockTexts]
    · simp [procImage, blockImgCount]

theorem procBlocks_out :
    ∀ (bs : List Block) (pnum : Nat) (acc a : Acc), procBlocks pnum acc bs = some a →
      a.texts = acc.texts ++ (bs.map blockTexts).flatten ∧
      a.imgs.length = acc.imgs.length + (bs.map blockImgCount).sum := by
  intro bs
  induction bs with
  | nil =>
    intro pnum acc a h
    injection h with h1
    subst h1
    simp
  | cons b bs ih =>
    intro pnum acc a h
    unfold procBlocks at h
    cases hb : procBlock pnum acc b with
    | none => rw [hb] at h; cases h
    | some c =>
      rw [hb] at h
      obtain ⟨h1, h2⟩ := procBlock_out hb
      obtain ⟨h3, h4⟩ := ih pnum c a h
      constructor
      · rw [h3, h1]; simp
      · rw [h4, h2]; simp; omega

theorem procPages_out :
    ∀ (ps : List Page) (acc : Acc) (pn : Nat) (a : Acc), procPages acc pn ps = some a →
      a.texts = acc.texts ++ docTexts ps ∧
      a.imgs.length = acc.imgs.length + docImgCount ps := by
  intro ps
  induction ps with
  | nil =>
    intro acc pn a h
    injection h with h1
    subst h1
    simp [docTexts, docImgCount]
  | cons p ps ih =>
    intro acc pn a h
    unfold procPages at h
    cases hp : procPage pn acc p with
    | none => rw [hp] at h; cases h
    | some c =>
      rw [hp] at h
      obtain ⟨h1, h2⟩ := procBlocks_out p.blocks.dropLast pn acc c hp
      obtain ⟨h3, h4⟩ := ih c (pn + 1) a h
      constructor
      · rw [h3, h1]; simp [docTexts, pageTexts]
      · rw [h4, h2]; simp [docImgCount, pageImgCount]; omega

/-- C2 amended: when extraction succeeds, the classifier consumes exactly the
blocks of each page *except the page's last block*: the flat text is the
ordered list of non-empty first-span line texts of the text blocks of that
prefix, and the number of tagged images equals the number of image blocks of
that prefix (one `TaggedImage` per processed image block). -/
theorem C2_amended_all_but_last_block_processed (doc : List Page)
    (ts : List (List Char)) (ims : List TImage)
    (h : extractTI doc = some (ts, ims)) :
    ts = docTexts doc ∧ ims.length = docImgCount doc := by
  unfold extractTI at h
  cases hp : procPages initAcc 1 doc with
  | none => rw [hp] at h; cases h
  | some a =>
    rw [hp] at h
    simp at h
    obtain ⟨hts, hims⟩ := h
    obtain ⟨h1, h2⟩ := procPages_out doc initAcc 1 a hp
    constructor
    · rw [← hts, h1]; rfl
    · rw [← hims, h2]; simp [initAcc]

/-- C2 amended witness: a page with a text block, an image block and a final
(dropped) image block. -/
theorem C2_amended_all_but_last_block_processed_witness :
    ["1. Hi".toList]
        = docTexts [Page.mk [Block.text [Line.mk [Span.mk "1. Hi".toList]],
            Block.image 3 "png".toList, Block.image 4 "png".toList]] ∧
    ([TImage.mk 3 1 "img_q1._0.png".toList] : List TImage).length
        = docImgCount [Page.mk [Block.text [Line.mk [Span.mk "1. Hi".toList]],
            Block.image 3 "png".toList, Block.image 4 "png".toList]] :=
  C2_amended_all_but_last_block_processed
    [Page.mk [Block.text [Line.mk [Span.mk "1. Hi".toList]],
        Block.image 3 "png".toList, Block.image 4 "png".toList]]
    ["1. Hi".toList] [TImage.mk 3 1 "img_q1._0.png".toList] (by decide)

end App
